import Mathlib

/-!
Shallow embedding of `gpx_hr_merger.py` and verification of its
natural-language specification.

Modelling conventions:
* An `Instant` (Python timezone-aware `datetime`) is a rational number of
  seconds since an arbitrary epoch; `(a - b).total_seconds()` is `a - b`.
* Python floats are modelled as real numbers.
* XML input documents are modelled as lists of records carrying the fields
  the program reads (`Option` for a child element that may be absent).
* A file that may not exist is an `Option` of its parsed contents
  (`none` = the file is absent from the working directory).
* Writing the TCX output is modelled by the structure `TcxDoc` holding the
  data that `create_tcx` interpolates into the emitted text.
-/

namespace GpxHrMerger

/-- A timezone-normalized point in time, in seconds. -/
abbrev Instant := ℚ

/-! ## Time parsing (`parse_time`)

`parse_time` manipulates the timestamp text and calls the external library
parser `datetime.fromisoformat` (which raises `ValueError` on failure,
modelled as an `Option`-returning parameter `fromiso`).  Timestamp text is
a list of characters. -/

/-- Python `t.replace("Z", "+00:00")`: replace every occurrence of the
one-character substring `"Z"`. -/
def pyReplaceZ : List Char → List Char
  | [] => []
  | c :: cs => if c = 'Z' then "+00:00".toList ++ pyReplaceZ cs else c :: pyReplaceZ cs

/-- Python `t.split(".")[0]`: the prefix of `t` up to (excluding) the first
`'.'`, or all of `t` when there is none. -/
def truncDot : List Char → List Char
  | [] => []
  | c :: cs => if c = '.' then [] else c :: truncDot cs

/-- `parse_time(t)`: replace `"Z"` by `"+00:00"`, try `fromisoformat`;
on `ValueError`, truncate at the first `"."` (when present), append
`"+00:00"` and try once more.  `none` models an uncaught `ValueError`. -/
def parse_time (fromiso : List Char → Option Instant) (t : List Char) : Option Instant :=
  let t1 := pyReplaceZ t
  match fromiso t1 with
  | some d => some d
  | none =>
      let t2 := if '.' ∈ t1 then truncDot t1 ++ "+00:00".toList else t1
      fromiso t2

/-! ## Geo (`haversine`) -/

/-- `haversine(lon1, lat1, lon2, lat2)`: great-circle distance in meters
between two points given in decimal degrees, spherical Earth of radius
6 371 000 m. -/
noncomputable def haversine (lon1 lat1 lon2 lat2 : ℝ) : ℝ :=
  let lon1r := lon1 * (Real.pi / 180)
  let lat1r := lat1 * (Real.pi / 180)
  let lon2r := lon2 * (Real.pi / 180)
  let lat2r := lat2 * (Real.pi / 180)
  let dlon := lon2r - lon1r
  let dlat := lat2r - lat1r
  let a := Real.sin (dlat / 2) ^ 2 +
    Real.cos lat1r * Real.cos lat2r * Real.sin (dlon / 2) ^ 2
  let c := 2 * Real.arcsin (Real.sqrt a)
  c * 6371000

/-! ## Heart-rate index (`load_hr_data`, `get_closest_hr`) -/

/-- One `<trkpt>` of the heart-rate file, as `load_hr_data` reads it:
an optional `<time>` child and an optional `<gpxtpx:hr>` value. -/
structure HrEntry where
  time : Option Instant
  hr : Option ℤ

/-- `load_hr_data(path)`: `[]` when the file does not exist (`none`);
otherwise, for each trackpoint, skip it when the `<time>` child is
missing, skip it when the heart-rate value is absent or falsy (zero),
and keep the pair `(time, hr)` otherwise. -/
def load_hr_data : Option (List HrEntry) → List (Instant × ℤ)
  | none => []
  | some entries =>
      entries.filterMap fun e =>
        match e.time, e.hr with
        | some t, some h => if h = 0 then none else some (t, h)
        | some _, none => none
        | none, _ => none

/-- The `for t, hr in hr_data` loop of `get_closest_hr`, carrying
`best_hr` and `min_diff`; `break` is modelled by returning `best_hr`
without consuming the rest of the list. -/
def gchLoop (target : Instant) : List (Instant × ℤ) → Option ℤ → ℚ → Option ℤ
  | [], best, _ => best
  | (t, hr) :: rest, best, minDiff =>
      let diff := |target - t|
      let best' := if diff < minDiff then some hr else best
      let minDiff' := if diff < minDiff then diff else minDiff
      if diff < 1/2 then best' else gchLoop target rest best' minDiff'

/-- `get_closest_hr(target_time, hr_data)`: `None` on an empty index,
otherwise scan with initial `best_hr = None`, `min_diff = 5.0`. -/
def get_closest_hr (target : Instant) (hr_data : List (Instant × ℤ)) : Option ℤ :=
  if hr_data.isEmpty then none else gchLoop target hr_data none 5

/-! ## Track builder (the GPS loop of `main`) -/

/-- One `<trkpt>` of the GPS file, as `main` reads it: mandatory `lat`
and `lon` attributes, optional `<ele>` and `<time>` children. -/
structure GpsEntry where
  lat : ℝ
  lon : ℝ
  ele : Option ℝ
  time : Option Instant

/-- One element of `track_points` as built by `main`'s GPS loop; the
`dist_calculated` key is added later by the rescale pass (placeholder 0
until then). -/
structure TrackPoint where
  lat : ℝ
  lon : ℝ
  ele : ℝ
  time : Instant
  raw_dist : ℝ
  hr : Option ℤ
  dist_calculated : ℝ

/-- The GPS loop of `main`, parameterized by the distance function `d`
(applied as `d prev_lon prev_lat lon lat`), carrying the
`(prev_lat, prev_lon)` cursor (`none` before the first retained point)
and `raw_accumulated_dist`.  Entries without a `<time>` child are
skipped; elevation defaults to `0.0`. -/
noncomputable def buildSeries (d : ℝ → ℝ → ℝ → ℝ → ℝ) (hr_data : List (Instant × ℤ)) :
    List GpsEntry → Option (ℝ × ℝ) → ℝ → List TrackPoint
  | [], _, _ => []
  | e :: rest, prev, acc =>
      match e.time with
      | none => buildSeries d hr_data rest prev acc
      | some t =>
          let step : ℝ :=
            match prev with
            | none => 0
            | some pl => d pl.2 pl.1 e.lon e.lat
          let acc' := acc + step
          { lat := e.lat, lon := e.lon, ele := e.ele.getD 0, time := t,
            raw_dist := acc', hr := get_closest_hr t hr_data,
            dist_calculated := 0 } ::
            buildSeries d hr_data rest (some (e.lat, e.lon)) acc'

/-- The step relation between consecutive points of the merged series:
the later point's cumulative distance is the earlier one's plus the
distance function applied to the two positions. -/
def stepRel (d : ℝ → ℝ → ℝ → ℝ → ℝ) (p q : TrackPoint) : Prop :=
  q.raw_dist = p.raw_dist + d p.lon p.lat q.lon q.lat

/-! ## Distance rescaler (step 3 of `main`) -/

/-- `ratio = target_meters / total_gps_dist if total_gps_dist > 0 else 1.0`. -/
noncomputable def computeRatio (target_meters total_gps_dist : ℝ) : ℝ :=
  if 0 < total_gps_dist then target_meters / total_gps_dist else 1

/-- The rescale pass: set `p["dist_calculated"] = p["raw_dist"] * ratio`
on every point, leaving every other field unchanged. -/
noncomputable def rescale (pts : List TrackPoint) (ratio : ℝ) : List TrackPoint :=
  pts.map fun p => { p with dist_calculated := p.raw_dist * ratio }

/-! ## Interchange writer (`create_tcx`) -/

/-- One `<Trackpoint>` element of the output document.  `hrBpm = some v`
iff a `<HeartRateBpm><Value>v</Value></HeartRateBpm>` element is written
(the writer guards it with Python truthiness: `if hr:`). -/
structure TcxPoint where
  time : Instant
  lat : ℝ
  lon : ℝ
  ele : ℝ
  dist : ℝ
  hrBpm : Option ℤ

/-- The data `create_tcx` interpolates into the emitted document. -/
structure TcxDoc where
  id : Instant
  lapStartTime : Instant
  totalTimeSeconds : ℚ
  distanceMeters : ℝ
  track : List TcxPoint

/-- The writer's `if hr:` guard: the heart-rate element is emitted only
when `hr` is truthy (present and nonzero). -/
def emitHr : Option ℤ → Option ℤ
  | none => none
  | some h => if h = 0 then none else some h

/-- `create_tcx(points, start_time, total_duration_sec, total_dist_meters, out_file)`. -/
noncomputable def create_tcx (points : List TrackPoint) (start_time : Instant)
    (total_duration_sec : ℚ) (total_dist_meters : ℝ) : TcxDoc :=
  { id := start_time, lapStartTime := start_time,
    totalTimeSeconds := total_duration_sec,
    distanceMeters := total_dist_meters,
    track := points.map fun p =>
      { time := p.time, lat := p.lat, lon := p.lon, ele := p.ele,
        dist := p.dist_calculated, hrBpm := emitHr p.hr } }

/-! ## The pipeline (`main`, after both input files were found) -/

/-- Steps 1–4 of `main`: load the heart-rate data, build the merged
series with `haversine`, abort (`none`) on an empty track, compute the
ratio, rescale, and emit the document.  Note the Lap-level distance
passed to `create_tcx` is `target_meters`. -/
noncomputable def runPipeline (target_km : ℝ) (gps : List GpsEntry)
    (hrFile : Option (List HrEntry)) : Option TcxDoc :=
  let hr_data := load_hr_data hrFile
  let track_points := buildSeries haversine hr_data gps none 0
  match track_points.head?, track_points.getLast? with
  | some firstP, some lastP =>
      let total_gps_dist := lastP.raw_dist
      let target_meters := target_km * 1000
      let ratio := computeRatio target_meters total_gps_dist
      let rescaled := rescale track_points ratio
      let duration := lastP.time - firstP.time
      some (create_tcx rescaled firstP.time duration target_meters)
  | _, _ => none

/-- `main` after argument parsing: `if not os.path.exists(file_gps) or
not os.path.exists(file_hr): return` — the run aborts with no output
unless BOTH input files exist; only then does the pipeline run. -/
noncomputable def main_run (target_km : ℝ) (gpsFile : Option (List GpsEntry))
    (hrFile : Option (List HrEntry)) : Option TcxDoc :=
  match gpsFile, hrFile with
  | some gps, some _ => runPipeline target_km gps hrFile
  | _, _ => none

/-! ## Lemmas about the closest-heart-rate scan -/

/-- If every sample of the remaining scan is at least 5 seconds away and
the best difference so far is at most 5, the scan never updates its
best-so-far value. -/
theorem gchLoop_all_far {target : Instant} :
    ∀ (xs : List (Instant × ℤ)) (best : Option ℤ) (minDiff : ℚ),
      minDiff ≤ 5 → (∀ p ∈ xs, 5 ≤ |target - p.1|) →
      gchLoop target xs best minDiff = best := by
  intro xs
  induction xs with
  | nil => intro best minDiff _ _; rfl
  | cons p rest ih =>
      obtain ⟨t, hr⟩ := p
      intro best minDiff hm hfar
      have h5 : 5 ≤ |target - t| := hfar (t, hr) (by simp)
      have hnlt : ¬ |target - t| < minDiff := not_lt.2 (hm.trans h5)
      have hnhalf : ¬ |target - t| < 1/2 := by push_neg; linarith
      simp only [gchLoop, if_neg hnlt, if_neg hnhalf]
      exact ih best minDiff hm fun q hq => hfar q (List.mem_cons_of_mem _ hq)

/-- Invariant of the scan: starting from a best-so-far value that is
either absent or witnessed by a sample of `samples` within 5 seconds,
and a best difference of at most 5, any returned value is witnessed by
a sample of `samples` within 5 seconds. -/
theorem gchLoop_some_mem {target : Instant} {samples : List (Instant × ℤ)} :
    ∀ (xs : List (Instant × ℤ)) (best : Option ℤ) (minDiff : ℚ),
      minDiff ≤ 5 →
      (∀ h, best = some h → ∃ p ∈ samples, p.2 = h ∧ |target - p.1| < 5) →
      (∀ p ∈ xs, p ∈ samples) →
      ∀ h, gchLoop target xs best minDiff = some h →
        ∃ p ∈ samples, p.2 = h ∧ |target - p.1| < 5 := by
  intro xs
  induction xs with
  | nil => intro best minDiff _ hbest _ h hrun; exact hbest h hrun
  | cons p rest ih =>
      obtain ⟨t, hr⟩ := p
      intro best minDiff hm hbest hsub h hrun
      have hmem : (t, hr) ∈ samples := hsub (t, hr) (by simp)
      have hsub' : ∀ q ∈ rest, q ∈ samples :=
        fun q hq => hsub q (List.mem_cons_of_mem _ hq)
      by_cases hlt : |target - t| < minDiff
      · have hm' : |target - t| ≤ 5 := le_of_lt (lt_of_lt_of_le hlt hm)
        have hbest' : ∀ h, some hr = some h →
            ∃ p ∈ samples, p.2 = h ∧ |target - p.1| < 5 := by
          intro h' hh'
          exact ⟨(t, hr), hmem, Option.some.inj hh', lt_of_lt_of_le hlt hm⟩
        by_cases hhalf : |target - t| < 1/2
        · simp only [gchLoop, if_pos hlt, if_pos hhalf] at hrun
          exact hbest' h hrun
        · simp only [gchLoop, if_pos hlt, if_neg hhalf] at hrun
          exact ih (some hr) |target - t| hm' hbest' hsub' h hrun
      · by_cases hhalf : |target - t| < 1/2
        · simp only [gchLoop, if_neg hlt, if_pos hhalf] at hrun
          exact hbest h hrun
        · simp only [gchLoop, if_neg hlt, if_neg hhalf] at hrun
          exact ih best minDiff hm hbest hsub' h hrun

/-! ## Lemmas about the track builder -/

/-- Once a previous point `p` is on record, the rest of the series
chains by `stepRel d` from `p`. -/
theorem buildSeries_chain_from (d : ℝ → ℝ → ℝ → ℝ → ℝ)
    (hr_data : List (Instant × ℤ)) :
    ∀ (gps : List GpsEntry) (p : TrackPoint),
      List.Chain' (stepRel d)
        (p :: buildSeries d hr_data gps (some (p.lat, p.lon)) p.raw_dist) := by
  intro gps
  induction gps with
  | nil => intro p; simp [buildSeries]
  | cons e rest ih =>
      intro p
      cases he : e.time with
      | none => simpa [buildSeries, he] using ih p
      | some t =>
          simp only [buildSeries, he]
          refine List.Chain'.cons rfl ?_
          exact ih ⟨e.lat, e.lon, e.ele.getD 0, t,
            p.raw_dist + d p.lon p.lat e.lon e.lat, get_closest_hr t hr_data, 0⟩

/-- From the initial state (no previous point, accumulator 0): the first
retained point has cumulative distance 0 and the whole series chains by
`stepRel d`. -/
theorem buildSeries_first_and_chain (d : ℝ → ℝ → ℝ → ℝ → ℝ)
    (hr_data : List (Instant × ℤ)) :
    ∀ gps : List GpsEntry,
      ((buildSeries d hr_data gps none 0).map TrackPoint.raw_dist).head?.getD 0 = 0 ∧
      List.Chain' (stepRel d) (buildSeries d hr_data gps none 0) := by
  intro gps
  induction gps with
  | nil => simp [buildSeries]
  | cons e rest ih =>
      cases he : e.time with
      | none => simpa [buildSeries, he] using ih
      | some t =>
          constructor
          · simp [buildSeries, he]
          · simp only [buildSeries, he]
            have h := buildSeries_chain_from d hr_data rest
              ⟨e.lat, e.lon, e.ele.getD 0, t, 0 + 0, get_closest_hr t hr_data, 0⟩
            simpa using h

/-- In a `(≤)`-chained list, every element is at most the last one. -/
theorem chain_le_getLast :
    ∀ (l : List ℝ) (hne : l ≠ []), List.Chain' (· ≤ ·) l →
      ∀ x ∈ l, x ≤ l.getLast hne := by
  intro l
  induction l with
  | nil => intro hne; exact absurd rfl hne
  | cons a rest ih =>
      intro _ hchain x hx
      cases rest with
      | nil =>
          simp only [List.mem_singleton] at hx
          simp [hx]
      | cons b t =>
          have hab : a ≤ b := (List.chain'_cons.1 hchain).1
          have htail : List.Chain' (· ≤ ·) (b :: t) := (List.chain'_cons.1 hchain).2
          rw [List.getLast_cons (by simp)]
          rcases List.mem_cons.1 hx with hxa | hxt
          · subst hxa
            exact hab.trans (ih (by simp) htail b (by simp))
          · exact ih (by simp) htail x hxt

/-- In a `(≤)`-chained list, the first element is at most every element. -/
theorem chain_head_le :
    ∀ (l : List ℝ) (a : ℝ), List.Chain' (· ≤ ·) (a :: l) →
      ∀ x ∈ a :: l, a ≤ x := by
  intro l
  induction l with
  | nil =>
      intro a _ x hx
      simp only [List.mem_singleton] at hx
      simp [hx]
  | cons b t ih =>
      intro a hchain x hx
      have hab : a ≤ b := (List.chain'_cons.1 hchain).1
      have htail : List.Chain' (· ≤ ·) (b :: t) := (List.chain'_cons.1 hchain).2
      rcases List.mem_cons.1 hx with hxa | hxt
      · simp [hxa]
      · exact hab.trans (ih b htail x hxt)

/-- The haversine distance is never negative. -/
theorem haversine_nonneg (lon1 lat1 lon2 lat2 : ℝ) :
    0 ≤ haversine lon1 lat1 lon2 lat2 := by
  unfold haversine
  have h1 : 0 ≤ Real.arcsin (Real.sqrt
      (Real.sin ((lat2 * (Real.pi / 180) - lat1 * (Real.pi / 180)) / 2) ^ 2 +
        Real.cos (lat1 * (Real.pi / 180)) * Real.cos (lat2 * (Real.pi / 180)) *
          Real.sin ((lon2 * (Real.pi / 180) - lon1 * (Real.pi / 180)) / 2) ^ 2)) :=
    Real.arcsin_nonneg.2 (Real.sqrt_nonneg _)
  positivity

/-- The raw distances of the merged series form a `(≤)`-chain whenever
the distance function is nonnegative. -/
theorem buildSeries_raw_chain_le (d : ℝ → ℝ → ℝ → ℝ → ℝ)
    (hd : ∀ a b c e, 0 ≤ d a b c e) (hr_data : List (Instant × ℤ))
    (gps : List GpsEntry) :
    List.Chain' (· ≤ ·) ((buildSeries d hr_data gps none 0).map TrackPoint.raw_dist) := by
  have hchain := (buildSeries_first_and_chain d hr_data gps).2
  rw [List.chain'_map]
  refine hchain.imp ?_
  intro p q hpq
  rw [hpq]
  exact le_add_of_nonneg_right (hd _ _ _ _)

/-! ## Lemmas about timestamp text manipulation -/

/-- Replacement distributes over concatenation. -/
theorem pyReplaceZ_append :
    ∀ a b : List Char, pyReplaceZ (a ++ b) = pyReplaceZ a ++ pyReplaceZ b := by
  intro a b
  induction a with
  | nil => rfl
  | cons c cs ih =>
      by_cases hc : c = 'Z'
      · simp [pyReplaceZ, hc, ih]
      · simp [pyReplaceZ, hc, ih]

/-- Replacement is the identity on text without a `'Z'`. -/
theorem pyReplaceZ_no_z :
    ∀ t : List Char, 'Z' ∉ t → pyReplaceZ t = t := by
  intro t
  induction t with
  | nil => intro _; rfl
  | cons c cs ih =>
      intro hz
      have hc : c ≠ 'Z' := fun h => hz (h ▸ List.mem_cons_self c cs)
      have hcs : 'Z' ∉ cs := fun h => hz (List.mem_cons_of_mem c h)
      simp [pyReplaceZ, hc, ih hcs]

/-! ## Lemmas about the pipeline -/

/-- With an empty heart-rate index, every point of the merged series
has no heart-rate value. -/
theorem buildSeries_empty_hr (d : ℝ → ℝ → ℝ → ℝ → ℝ) :
    ∀ (gps : List GpsEntry) (prev : Option (ℝ × ℝ)) (acc : ℝ),
      ∀ p ∈ buildSeries d [] gps prev acc, p.hr = none := by
  intro gps
  induction gps with
  | nil => intro prev acc p hp; simp [buildSeries] at hp
  | cons e rest ih =>
      intro prev acc p hp
      cases he : e.time with
      | none =>
          simp only [buildSeries, he] at hp
          exact ih prev acc p hp
      | some t =>
          simp only [buildSeries, he] at hp
          rcases List.mem_cons.1 hp with hnew | hold
          · rw [hnew]; rfl
          · exact ih _ _ p hold

/-- Any document produced by the pipeline has the shape emitted by
`create_tcx` on the rescaled series. -/
theorem runPipeline_eq_some {target_km : ℝ} {gps : List GpsEntry}
    {hrFile : Option (List HrEntry)} {doc : TcxDoc}
    (hrun : runPipeline target_km gps hrFile = some doc) :
    ∃ firstP lastP,
      (buildSeries haversine (load_hr_data hrFile) gps none 0).head? = some firstP ∧
      (buildSeries haversine (load_hr_data hrFile) gps none 0).getLast? = some lastP ∧
      doc = create_tcx
        (rescale (buildSeries haversine (load_hr_data hrFile) gps none 0)
          (computeRatio (target_km * 1000) lastP.raw_dist))
        firstP.time (lastP.time - firstP.time) (target_km * 1000) := by
  rw [runPipeline] at hrun
  cases hh : (buildSeries haversine (load_hr_data hrFile) gps none 0).head? with
  | none => rw [hh] at hrun; cases hrun
  | some firstP =>
      cases hl : (buildSeries haversine (load_hr_data hrFile) gps none 0).getLast? with
      | none => rw [hh, hl] at hrun; cases hrun
      | some lastP =>
          rw [hh, hl] at hrun
          exact ⟨firstP, lastP, rfl, rfl, (Option.some.inj hrun).symm⟩

/-! ## Claim theorems -/

/-- C3: the closest-heart-rate scan stops early at the first sample
whose absolute time difference to the target is under 0.5 s and returns
that sample even if a later sample is strictly closer; in particular,
for samples at differences 4.9 s, 0.3 s, 0.1 s in scan order the
returned sample is the one at 0.3 s, not the one at 0.1 s. -/
theorem closest_hr_early_exit :
    (∀ (target t : Instant) (h : ℤ) (ys : List (Instant × ℤ)) (best : Option ℤ)
        (minDiff : ℚ), 1/2 ≤ minDiff → |target - t| < 1/2 →
        gchLoop target ((t, h) :: ys) best minDiff = some h) ∧
    get_closest_hr 0 [(49/10, 100), (3/10, 101), (1/10, 102)] = some 101 := by
  constructor
  · intro target t h ys best minDiff hmin hdiff
    have h1 : |target - t| < minDiff := lt_of_lt_of_le hdiff hmin
    simp only [gchLoop, if_pos h1, if_pos hdiff]
  · norm_num [get_closest_hr, gchLoop, abs_of_nonpos]

/-- Witness for C3: applying the early-exit law at a concrete scan state
whose first sample is 0.3 s away reproduces that sample. -/
theorem closest_hr_early_exit_witness :
    gchLoop 0 [((3 : ℚ)/10, 101), ((1 : ℚ)/10, 102)] none 5 = some 101 :=
  closest_hr_early_exit.1 0 (3/10) 101 [(1/10, 102)] none 5 (by norm_num)
    (by rw [abs_of_nonpos (by norm_num)]; norm_num)

/-- C4: the lookup considers only samples whose absolute time difference
is strictly under 5 seconds: it returns `none` on an empty index, it
returns `none` when every sample is at least 5 seconds away, and any
value it returns is witnessed by a sample strictly within 5 seconds —
so a sample further than 5 seconds from every GPS point is never
attached to any merged point. -/
theorem closest_hr_within_tolerance :
    ∀ (target : Instant) (samples : List (Instant × ℤ)),
      get_closest_hr target [] = none ∧
      ((∀ p ∈ samples, 5 ≤ |target - p.1|) → get_closest_hr target samples = none) ∧
      (∀ h, get_closest_hr target samples = some h →
        ∃ p ∈ samples, p.2 = h ∧ |target - p.1| < 5) := by
  intro target samples
  refine ⟨rfl, ?_, ?_⟩
  · intro hfar
    cases samples with
    | nil => rfl
    | cons p rest =>
        simp only [get_closest_hr, List.isEmpty_cons, if_neg Bool.false_ne_true]
        exact gchLoop_all_far _ none 5 le_rfl hfar
  · intro h hrun
    cases samples with
    | nil => simp [get_closest_hr] at hrun
    | cons p rest =>
        simp only [get_closest_hr, List.isEmpty_cons, if_neg Bool.false_ne_true] at hrun
        exact gchLoop_some_mem _ none 5 le_rfl (by simp) (fun q hq => hq) h hrun

/-- Witness for C4: a lone sample 10 seconds away from the target is not
returned. -/
theorem closest_hr_within_tolerance_witness :
    get_closest_hr 0 [((10 : ℚ), (70 : ℤ))] = none :=
  (closest_hr_within_tolerance 0 [(10, 70)]).2.1 (by
    intro p hp
    simp only [List.mem_singleton] at hp
    subst hp
    rw [abs_of_nonpos (by norm_num)]
    norm_num)

/-- C5: in the merged series built from any GPS input, the first
retained point has cumulative raw distance 0 (its step-distance is 0),
each subsequent point's `raw_dist` is the previous point's `raw_dist`
plus the haversine distance between the two positions, and `raw_dist`
is monotonically non-decreasing across the whole series. -/
theorem merged_series_distance_accumulation :
    ∀ (hr_data : List (Instant × ℤ)) (gps : List GpsEntry),
      ((buildSeries haversine hr_data gps none 0).map TrackPoint.raw_dist).head?.getD 0 = 0 ∧
      List.Chain' (stepRel haversine) (buildSeries haversine hr_data gps none 0) ∧
      List.Chain' (· ≤ ·)
        ((buildSeries haversine hr_data gps none 0).map TrackPoint.raw_dist) :=
  fun hr_data gps =>
    ⟨(buildSeries_first_and_chain haversine hr_data gps).1,
      (buildSeries_first_and_chain haversine hr_data gps).2,
      buildSeries_raw_chain_le haversine haversine_nonneg hr_data gps⟩

/-- C6: on a non-empty series, the rescaler's ratio is
`target / raw_total` when `raw_total > 0` and defaults to 1 when
`raw_total = 0`; the rescale pass sets `dist_calculated` of every point
to `raw_dist × ratio` and leaves every other field unchanged. -/
theorem rescaler_ratio_and_fields :
    ∀ (target_meters : ℝ) (pts : List TrackPoint) (hne : pts ≠ []),
      ((pts.getLast hne).raw_dist = 0 →
        computeRatio target_meters (pts.getLast hne).raw_dist = 1) ∧
      (0 < (pts.getLast hne).raw_dist →
        computeRatio target_meters (pts.getLast hne).raw_dist =
          target_meters / (pts.getLast hne).raw_dist) ∧
      ((rescale pts (computeRatio target_meters (pts.getLast hne).raw_dist)).map
          TrackPoint.dist_calculated =
        pts.map (fun p =>
          p.raw_dist * computeRatio target_meters (pts.getLast hne).raw_dist)) ∧
      ((rescale pts (computeRatio target_meters (pts.getLast hne).raw_dist)).map
          TrackPoint.lat = pts.map TrackPoint.lat) ∧
      ((rescale pts (computeRatio target_meters (pts.getLast hne).raw_dist)).map
          TrackPoint.lon = pts.map TrackPoint.lon) ∧
      ((rescale pts (computeRatio target_meters (pts.getLast hne).raw_dist)).map
          TrackPoint.ele = pts.map TrackPoint.ele) ∧
      ((rescale pts (computeRatio target_meters (pts.getLast hne).raw_dist)).map
          TrackPoint.time = pts.map TrackPoint.time) ∧
      ((rescale pts (computeRatio target_meters (pts.getLast hne).raw_dist)).map
          TrackPoint.raw_dist = pts.map TrackPoint.raw_dist) ∧
      ((rescale pts (computeRatio target_meters (pts.getLast hne).raw_dist)).map
          TrackPoint.hr = pts.map TrackPoint.hr) := by
  intro target_meters pts hne
  refine ⟨?_, ?_, ?_, ?_, ?_, ?_, ?_, ?_, ?_⟩
  · intro h0; simp [computeRatio, h0]
  · intro hpos; simp [computeRatio, hpos]
  all_goals simp [rescale, List.map_map]

/-- Witness for C6: a one-point series with `raw_dist = 0` yields
ratio 1. -/
theorem rescaler_ratio_and_fields_witness :
    computeRatio 7
      (([(⟨0, 0, 0, 0, 0, none, 0⟩ : TrackPoint)].getLast
        (List.cons_ne_nil _ _)).raw_dist) = 1 :=
  (rescaler_ratio_and_fields 7 [⟨0, 0, 0, 0, 0, none, 0⟩]
    (List.cons_ne_nil _ _)).1 rfl

/-- C7: on any non-empty merged series, rescaling with target equal to
the raw total gives ratio 1 and corrected distances equal to the raw
cumulative distances; and multiplying the target by `k` multiplies
every corrected distance by `k`. -/
theorem rescaler_identity_and_linearity :
    ∀ (hr_data : List (Instant × ℤ)) (gps : List GpsEntry) (target_meters k : ℝ)
      (hne : buildSeries haversine hr_data gps none 0 ≠ []),
      (computeRatio ((buildSeries haversine hr_data gps none 0).getLast hne).raw_dist
          ((buildSeries haversine hr_data gps none 0).getLast hne).raw_dist = 1 ∧
        (rescale (buildSeries haversine hr_data gps none 0)
            (computeRatio
              ((buildSeries haversine hr_data gps none 0).getLast hne).raw_dist
              ((buildSeries haversine hr_data gps none 0).getLast hne).raw_dist)).map
          TrackPoint.dist_calculated =
          (buildSeries haversine hr_data gps none 0).map TrackPoint.raw_dist) ∧
      (rescale (buildSeries haversine hr_data gps none 0)
          (computeRatio (k * target_meters)
            ((buildSeries haversine hr_data gps none 0).getLast hne).raw_dist)).map
        TrackPoint.dist_calculated =
        ((rescale (buildSeries haversine hr_data gps none 0)
            (computeRatio target_meters
              ((buildSeries haversine hr_data gps none 0).getLast hne).raw_dist)).map
          TrackPoint.dist_calculated).map (fun x => k * x) := by
  intro hr_data gps target_meters k hne
  set pts := buildSeries haversine hr_data gps none 0 with hpts
  set total := (pts.getLast hne).raw_dist with htotal
  have hratio1 : computeRatio total total = 1 := by
    by_cases hpos : 0 < total
    · simp [computeRatio, hpos, div_self (ne_of_gt hpos)]
    · simp [computeRatio, hpos]
  refine ⟨⟨hratio1, ?_⟩, ?_⟩
  · rw [hratio1]
    simp [rescale, List.map_map]
  · by_cases hpos : 0 < total
    · have hk : computeRatio (k * target_meters) total =
          k * computeRatio target_meters total := by
        simp [computeRatio, hpos, mul_div_assoc]
      rw [hk]
      simp only [rescale, List.map_map]
      refine List.map_congr_left ?_
      intro p _
      simp only [Function.comp_apply]
      ring
    · -- Degenerate series: the raw total is 0, hence (the raw distances
      -- being nonnegative and non-decreasing) every raw distance is 0.
      have hzero : ∀ p ∈ pts, p.raw_dist = 0 := by
        intro p hp
        have hchain : List.Chain' (· ≤ ·) (pts.map TrackPoint.raw_dist) :=
          buildSeries_raw_chain_le haversine haversine_nonneg hr_data gps
        have hmemmap : p.raw_dist ∈ pts.map TrackPoint.raw_dist :=
          List.mem_map_of_mem _ hp
        have hmapne : pts.map TrackPoint.raw_dist ≠ [] := by
          simpa using List.ne_nil_of_mem hp
        have hlastmap : (pts.map TrackPoint.raw_dist).getLast hmapne = total := by
          have h1 := List.getLast?_eq_getLast_of_ne_nil hmapne
          have h2 := List.getLast?_eq_getLast_of_ne_nil hne
          have h3 := List.getLast?_map TrackPoint.raw_dist pts
          rw [h1, h2] at h3
          rw [htotal]
          exact Option.some.inj h3
        have hle : p.raw_dist ≤ total := by
          have := chain_le_getLast _ hmapne hchain _ hmemmap
          rwa [hlastmap] at this
        have hhead0 :
            ((pts.map TrackPoint.raw_dist).head?.getD 0 : ℝ) = 0 :=
          (buildSeries_first_and_chain haversine hr_data gps).1
        have hge : 0 ≤ p.raw_dist := by
          obtain ⟨a, rest, hcons⟩ := List.exists_cons_of_ne_nil hmapne
          have ha : a = 0 := by simpa [hcons] using hhead0
          have := chain_head_le rest a (by rwa [hcons] at hchain) _
            (by rwa [hcons] at hmemmap)
          rwa [ha] at this
        have htot0 : total = 0 := le_antisymm (not_lt.1 hpos)
          (by
            have := hge.trans hle
            exact this)
        linarith
      simp only [rescale, List.map_map]
      refine List.map_congr_left ?_
      intro p hp
      simp only [Function.comp_apply]
      rw [hzero p hp]
      ring

/-- Witness for C7: the identity part at a concrete one-point GPS
track. -/
theorem rescaler_identity_and_linearity_witness :
    computeRatio
      (((buildSeries haversine [] [⟨0, 0, none, some 0⟩] none 0).getLast
        (by simp [buildSeries])).raw_dist)
      (((buildSeries haversine [] [⟨0, 0, none, some 0⟩] none 0).getLast
        (by simp [buildSeries])).raw_dist) = 1 :=
  (rescaler_identity_and_linearity [] [⟨0, 0, none, some 0⟩] 3 2
    (by simp [buildSeries])).1.1

/-- C9: time parsing turns a trailing `"Z"` into an explicit `"+00:00"`
offset before the generic parse (replacement leaves Z-free text alone
and rewrites a trailing `'Z'` to `"+00:00"`); when the first parse
fails it truncates the text at the first `"."` (when one is present),
appends `"+00:00"` and retries; and it fails exactly when both
attempts fail. -/
theorem parse_time_fallback :
    ∀ (fromiso : List Char → Option Instant) (t : List Char),
      ('Z' ∉ t → pyReplaceZ (t ++ ['Z']) = t ++ "+00:00".toList) ∧
      (∀ d, fromiso (pyReplaceZ t) = some d → parse_time fromiso t = some d) ∧
      (fromiso (pyReplaceZ t) = none → '.' ∈ pyReplaceZ t →
        parse_time fromiso t =
          fromiso (truncDot (pyReplaceZ t) ++ "+00:00".toList)) ∧
      (parse_time fromiso t = none ↔
        fromiso (pyReplaceZ t) = none ∧
        fromiso (if '.' ∈ pyReplaceZ t
          then truncDot (pyReplaceZ t) ++ "+00:00".toList
          else pyReplaceZ t) = none) := by
  intro fromiso t
  refine ⟨?_, ?_, ?_, ?_⟩
  · intro hz
    rw [pyReplaceZ_append, pyReplaceZ_no_z t hz]
    rfl
  · intro d hd
    simp [parse_time, hd]
  · intro hnone hdot
    simp [parse_time, hnone, hdot]
  · cases hfi : fromiso (pyReplaceZ t) with
    | some d => simp [parse_time, hfi]
    | none =>
        by_cases hdot : '.' ∈ pyReplaceZ t
        · simp [parse_time, hfi, hdot]
        · simp [parse_time, hfi, hdot]

/-- Witness for C9: with a parser accepting exactly `"1+00:00"`, the
input `"1Z"` parses on the first attempt after Z-normalization. -/
theorem parse_time_fallback_witness :
    parse_time (fun s => if s = "1+00:00".toList then some 1 else none)
      "1Z".toList = some 1 :=
  (parse_time_fallback (fun s => if s = "1+00:00".toList then some 1 else none)
    "1Z".toList).2.1 1 (by decide)

/-- C8: a pair is loaded from the heart-rate file exactly when its
source entry has a timestamp and a present, nonzero heart-rate value
— so no loaded sample has bpm 0; the writer's truthiness guard never
emits a HeartRateBpm element with value 0; and no document produced by
the pipeline contains a HeartRateBpm element with value 0. -/
theorem no_zero_heart_rate :
    ∀ (entries : List HrEntry) (t : Instant) (h : ℤ),
      ((t, h) ∈ load_hr_data (some entries) ↔
        ∃ e ∈ entries, e.time = some t ∧ e.hr = some h ∧ h ≠ 0) ∧
      (∀ hrOpt, emitHr hrOpt ≠ some 0) ∧
      (∀ (target_km : ℝ) (gps : List GpsEntry) (hrFile : Option (List HrEntry))
        (doc : TcxDoc), runPipeline target_km gps hrFile = some doc →
          ∀ q ∈ doc.track, q.hrBpm ≠ some 0) := by
  have hemit : ∀ hrOpt, emitHr hrOpt ≠ some 0 := by
    intro hrOpt
    cases hrOpt with
    | none => simp [emitHr]
    | some v =>
        by_cases hv : v = 0
        · simp [emitHr, hv]
        · simp [emitHr, hv]
  intro entries t h
  refine ⟨?_, hemit, ?_⟩
  · show (t, h) ∈ entries.filterMap _ ↔ _
    rw [List.mem_filterMap]
    constructor
    · rintro ⟨⟨et, eh⟩, he, hfe⟩
      cases et with
      | none => simp at hfe
      | some t' =>
          cases eh with
          | none => simp at hfe
          | some h' =>
              by_cases hz : h' = 0
              · simp [hz] at hfe
              · simp [hz] at hfe
                obtain ⟨ht, hh⟩ := hfe
                exact ⟨⟨some t', some h'⟩, he, by rw [ht], by rw [hh], hh ▸ hz⟩
    · rintro ⟨e, he, het, heh, hz⟩
      refine ⟨e, he, ?_⟩
      rw [het, heh]
      simp [hz]
  · intro target_km gps hrFile doc hrun q hq
    obtain ⟨firstP, lastP, _, _, hdoc⟩ := runPipeline_eq_some hrun
    rw [hdoc] at hq
    simp only [create_tcx, List.mem_map] at hq
    obtain ⟨p, _, hpq⟩ := hq
    rw [← hpq]
    exact hemit p.hr

/-- Witness for C8: an entry with timestamp and bpm 7 is loaded, and
the writer refuses a zero value. -/
theorem no_zero_heart_rate_witness :
    ((0 : Instant), (7 : ℤ)) ∈ load_hr_data (some [⟨some 0, some 7⟩]) ∧
    emitHr (some 0) ≠ some 0 :=
  ⟨(no_zero_heart_rate [⟨some 0, some 7⟩] 0 7).1.mpr
      ⟨⟨some 0, some 7⟩, by simp, rfl, rfl, by decide⟩,
    (no_zero_heart_rate [] 0 7).2.1 (some 0)⟩

/-- C1 counterexample: with a valid one-point GPS file present and the
heart-rate file absent, `main` aborts at its file-existence check and
produces no output document, contrary to the claim that such a run
completes and produces output. -/
theorem missing_hr_file_no_output :
    main_run 5 (some [⟨0, 0, none, some 0⟩]) none = none := rfl

/-- C1 (amended): `load_hr_data` itself soft-fails to an empty sequence
on a missing file; a pipeline run over an absent heart-rate file would
attach no heart-rate value to any point and emit zero HeartRateBpm
elements; but `main` aborts before the pipeline whenever the
heart-rate file does not exist, so no output document is produced. -/
theorem missing_hr_file_soft_fail :
    load_hr_data none = [] ∧
    (∀ t : Instant, get_closest_hr t (load_hr_data none) = none) ∧
    (∀ (target_km : ℝ) (gps : List GpsEntry) (doc : TcxDoc),
      runPipeline target_km gps none = some doc →
        doc.track.map TcxPoint.hrBpm = List.replicate doc.track.length none) ∧
    (∀ (target_km : ℝ) (gpsFile : Option (List GpsEntry)),
      main_run target_km gpsFile none = none) := by
  refine ⟨rfl, fun t => rfl, ?_, ?_⟩
  · intro target_km gps doc hrun
    obtain ⟨firstP, lastP, _, _, hdoc⟩ := runPipeline_eq_some hrun
    subst hdoc
    rw [List.eq_replicate_iff]
    refine ⟨by simp, ?_⟩
    intro b hb
    simp only [create_tcx, rescale, List.map_map, List.mem_map,
      Function.comp_apply] at hb
    obtain ⟨p, hp, hbp⟩ := hb
    rw [← hbp]
    have hhr : p.hr = none := buildSeries_empty_hr haversine gps none 0 p hp
    simp [hhr, emitHr]
  · intro target_km gpsFile
    cases gpsFile with
    | none => rfl
    | some gps => rfl

/-- Witness for C1 (amended): the soft-fail parts at concrete inputs:
an empty index yields no match, `main` yields no output with the
heart-rate file absent, and a concrete pipeline run over an absent
heart-rate file has all-absent heart-rate output. -/
theorem missing_hr_file_soft_fail_witness :
    get_closest_hr 0 (load_hr_data none) = none ∧
    main_run 3 (some []) none = none ∧
    (⟨0, 0, 0, 2000, [⟨0, 0, 0, 0, 0, none⟩]⟩ : TcxDoc).track.map TcxPoint.hrBpm =
      List.replicate
        (⟨0, 0, 0, 2000, [⟨0, 0, 0, 0, 0, none⟩]⟩ : TcxDoc).track.length none :=
  ⟨missing_hr_file_soft_fail.2.1 0,
    missing_hr_file_soft_fail.2.2.2 3 (some []),
    missing_hr_file_soft_fail.2.2.1 2 [⟨0, 0, none, some 0⟩]
      ⟨0, 0, 0, 2000, [⟨0, 0, 0, 0, 0, none⟩]⟩
      (by
        norm_num [runPipeline, buildSeries, get_closest_hr, load_hr_data,
          rescale, create_tcx, emitHr, computeRatio])⟩

/-- C2 counterexample: for a degenerate single-point track
(`raw_total = 0`) with target 5 km, the emitted Lap DistanceMeters is
5000 while the total corrected distance of the series (the last and
only point's corrected distance) is 0 — the Lap value does not equal
the corrected total in the degenerate case. -/
theorem lap_distance_degenerate_counterexample :
    (runPipeline 5 [⟨0, 0, none, some 0⟩] (some [])).map
      (fun d => (d.distanceMeters, d.track.map TcxPoint.dist)) =
        some (5000, [0]) ∧
    (5000 : ℝ) ≠ 0 := by
  constructor
  · norm_num [runPipeline, buildSeries, get_closest_hr, load_hr_data, rescale,
      create_tcx, emitHr, computeRatio]
  · norm_num

/-- C2 (amended): the Lap-level DistanceMeters written into the output
always equals the target distance in meters; whenever the series' raw
total is positive this coincides with the total corrected distance
(the last point's `raw_total × ratio`); in the degenerate case
`raw_total = 0` the Lap value is the target while the last corrected
distance is 0. -/
theorem lap_distance_meters :
    ∀ (target_km : ℝ) (gps : List GpsEntry) (hrFile : Option (List HrEntry))
      (doc : TcxDoc),
      runPipeline target_km gps hrFile = some doc →
      doc.distanceMeters = target_km * 1000 ∧
      ∀ lastP,
        (buildSeries haversine (load_hr_data hrFile) gps none 0).getLast? =
          some lastP →
        (0 < lastP.raw_dist →
          (doc.track.map TcxPoint.dist).getLast? = some doc.distanceMeters) ∧
        (lastP.raw_dist = 0 →
          (doc.track.map TcxPoint.dist).getLast? = some 0) := by
  intro target_km gps hrFile doc hrun
  obtain ⟨firstP, lastP', hh, hl, hdoc⟩ := runPipeline_eq_some hrun
  subst hdoc
  refine ⟨rfl, ?_⟩
  intro lastP hlast
  rw [hl] at hlast
  obtain rfl : lastP' = lastP := Option.some.inj hlast
  have htrack :
      ((create_tcx
          (rescale (buildSeries haversine (load_hr_data hrFile) gps none 0)
            (computeRatio (target_km * 1000) lastP'.raw_dist))
          firstP.time (lastP'.time - firstP.time) (target_km * 1000)).track.map
        TcxPoint.dist) =
      (buildSeries haversine (load_hr_data hrFile) gps none 0).map
        (fun p => p.raw_dist * computeRatio (target_km * 1000) lastP'.raw_dist) := by
    simp [create_tcx, rescale, List.map_map]
  have hgl :
      ((create_tcx
          (rescale (buildSeries haversine (load_hr_data hrFile) gps none 0)
            (computeRatio (target_km * 1000) lastP'.raw_dist))
          firstP.time (lastP'.time - firstP.time) (target_km * 1000)).track.map
        TcxPoint.dist).getLast? =
      some (lastP'.raw_dist * computeRatio (target_km * 1000) lastP'.raw_dist) := by
    rw [htrack, List.getLast?_map, hl]
    rfl
  constructor
  · intro hpos
    rw [hgl]
    have hratio : computeRatio (target_km * 1000) lastP'.raw_dist =
        target_km * 1000 / lastP'.raw_dist := by
      simp [computeRatio, hpos]
    rw [hratio, mul_comm, div_mul_cancel₀ _ (ne_of_gt hpos)]
    rfl
  · intro hzero
    rw [hgl, hzero, zero_mul]

/-- Witness for C2 (amended): at a concrete degenerate run the Lap
value equals the 5 km target and the last corrected distance is 0. -/
theorem lap_distance_meters_witness :
    (⟨0, 0, 0, 5000, [⟨0, 0, 0, 0, 0, none⟩]⟩ : TcxDoc).distanceMeters = 5 * 1000 ∧
    ((⟨0, 0, 0, 5000, [⟨0, 0, 0, 0, 0, none⟩]⟩ : TcxDoc).track.map
      TcxPoint.dist).getLast? = some 0 := by
  have hrun : runPipeline 5 [⟨0, 0, none, some 0⟩] (some []) =
      some ⟨0, 0, 0, 5000, [⟨0, 0, 0, 0, 0, none⟩]⟩ := by
    norm_num [runPipeline, buildSeries, get_closest_hr, load_hr_data, rescale,
      create_tcx, emitHr, computeRatio]
  have h := lap_distance_meters 5 [⟨0, 0, none, some 0⟩] (some [])
    ⟨0, 0, 0, 5000, [⟨0, 0, 0, 0, 0, none⟩]⟩ hrun
  refine ⟨h.1, ?_⟩
  have hlast : (buildSeries haversine (load_hr_data (some []))
      [⟨0, 0, none, some 0⟩] none 0).getLast? = some ⟨0, 0, 0, 0, 0, none, 0⟩ := by
    norm_num [buildSeries, get_closest_hr, load_hr_data]
  exact (h.2 ⟨0, 0, 0, 0, 0, none, 0⟩ hlast).2 rfl

/-- C10: only the value zero is treated as an absent heart rate — a
sample with negative bpm at the exact instant of the GPS point is
loaded by `load_hr_data`, attached by the match, and its negative
value is emitted inside a HeartRateBpm element of the output. -/
theorem negative_heart_rate_flows_through :
    load_hr_data (some [⟨some 0, some (-5)⟩]) = [(0, -5)] ∧
    get_closest_hr 0 [(0, -5)] = some (-5) ∧
    (runPipeline 1 [⟨0, 0, none, some 0⟩] (some [⟨some 0, some (-5)⟩])).map
      (fun d => d.track.map TcxPoint.hrBpm) = some [some (-5)] := by
  refine ⟨by decide, by norm_num [get_closest_hr, gchLoop], ?_⟩
  norm_num [runPipeline, buildSeries, get_closest_hr, gchLoop, load_hr_data,
    rescale, create_tcx, emitHr, computeRatio]
  simp

end GpxHrMerger
